import Mathlib

/-!
Shallow embedding of the station geocoding tool
(repository files geocoding_functions.py and nominatim_geocoding.py).

A pandas DataFrame is modelled as a list of `Row` values indexed by
position; `Option` fields model nullable cells (pandas NaN / None).
Coordinates are rationals, and the Python str rendering used for the
coordinate grouping key and the maps link is modelled by `qstr`.
A geocoding provider is a function from the call number and the query
to an `Except`, so that transport failures (Python exceptions) and
external nondeterminism are explicit in the model.
-/

/-- ASCII whitespace, the characters relevant to the Python strip()
calls appearing in the source. -/
def isSpaceChar (c : Char) : Bool := c = ' ' || c = '\t' || c = '\n' || c = '\r'

/-- Model of the Python str.strip() method: drop whitespace from both
ends.  Defined on the underlying character list so that it is fully
executable inside the kernel. -/
def String.pyStrip (s : String) : String :=
  String.mk (((s.data.dropWhile isSpaceChar).reverse.dropWhile isSpaceChar).reverse)

/-- Model of the Python str.lower() method. -/
def String.pyLower (s : String) : String := String.mk (s.data.map Char.toLower)

/-- strip() followed by lower(), the normalization the source applies
to addresses and country terms before comparing. -/
def String.pyNorm (s : String) : String := s.pyStrip.pyLower

namespace Geocode

/-- One table row.  Input columns: `name` (the caller-selected name
column) and `city`.  Output columns added by the pipelines: `Lat`,
`Lng`, `Address`, plus `Maps_Link` and `Locality_Filter` for the
Google variant and `OSM_ID` and `OSM_Type` for the Nominatim variant.
`none` models a missing cell (NaN). -/
structure Row where
  name : Option String := none
  city : Option String := none
  lat : Option ℚ := none
  lng : Option ℚ := none
  address : Option String := none
  mapsLink : Option String := none
  localityFilter : Option Bool := none
  osmId : Option Int := none
  osmType : Option String := none
deriving Repr, DecidableEq, Inhabited

/-- Rendering of a rational coordinate as text, standing in for the
Python str() of a float.  The exact digits are irrelevant to every
property proved below; what matters is that the rendering contains no
comma, so the comma-joined coordinate key is unambiguous. -/
def qstr (q : ℚ) : String := toString q.num ++ "/" ++ toString q.den

/-- QueryBuilder, geocoding_functions.py lines 78 to 89 (the same code
appears in nominatim_geocoding.py lines 84 to 95): the name cell (empty
when NaN), then `, city` when the city column is selected and the cell
is non-empty, then `, country` when the country is non-empty. -/
def buildQuery (cityColPresent : Bool) (country : String) (r : Row) : String :=
  let locationName := r.name.getD ""
  let cityName := if cityColPresent then r.city.getD "" else ""
  let q := if cityName ≠ "" then locationName ++ ", " ++ cityName else locationName
  if country ≠ "" then q ++ ", " ++ country else q

/-- One record of the external pycountry dataset: common name, optional
official name, and the two standard codes.  The dataset itself is an
external library resource, so the definitions below are parameterized
by a list of these records. -/
structure CountryRec where
  name : String
  officialName : Option String := none
  alpha2 : String
  alpha3 : String
deriving Repr, DecidableEq

/-- The country-only term list built by is_valid_geocode_result
(geocoding_functions.py lines 103 to 114) and by filter_invalid_results
(lines 196 to 208): the supplied country (trimmed, lowercased) when
non-empty, then for every known country its common name, its official
name when present and non-empty, and its two codes when non-empty, all
lowercased. -/
def countryTerms (db : List CountryRec) (country : String) : List String :=
  (if country ≠ "" then [country.pyNorm] else []) ++
    (db.map (fun c =>
      [c.name.pyLower] ++
        (match c.officialName with
          | some o => if o ≠ "" then [o.pyLower] else []
          | none => []) ++
        (if c.alpha2 ≠ "" then [c.alpha2.pyLower] else []) ++
        (if c.alpha3 ≠ "" then [c.alpha3.pyLower] else []))).flatten

/-- One result of the Google geocoding call: the formatted address and
the geometry location. -/
structure GeoResult where
  formattedAddress : String
  lat : ℚ
  lng : ℚ
deriving Repr, DecidableEq

/-- ResultValidator, geocoding_functions.py lines 94 to 118: an empty
result list is invalid; otherwise the first result is rejected exactly
when its formatted address, trimmed and lowercased, is empty or is one
of the country-only terms. -/
def is_valid_geocode_result (geocodeResult : List GeoResult) (country : String)
    (db : List CountryRec) : Bool :=
  match geocodeResult with
  | [] => false
  | res :: _ =>
    let formattedAddress := res.formattedAddress.pyNorm
    if formattedAddress = "" then false
    else if formattedAddress ∈ countryTerms db country then false
    else true

/-- A small concrete fragment of the pycountry dataset, faithful to the
real entries, used to evaluate the validator on concrete inputs. -/
def pycountrySample : List CountryRec :=
  [⟨"France", some "French Republic", "FR", "FRA"⟩,
   ⟨"Belgium", some "Kingdom of Belgium", "BE", "BEL"⟩,
   ⟨"Canada", none, "CA", "CAN"⟩]

/-! ## AnomalyDetector: find_potential_errors -/

/-- The rows considered by find_potential_errors
(geocoding_functions.py line 241): both coordinates present. -/
def validRows (df : List Row) : List Row :=
  df.filter (fun r => r.lat.isSome && r.lng.isSome)

/-- The string-joined coordinate key of geocoding_functions.py line
247, `str(Lat) + "," + str(Lng)`; only applied to rows of `validRows`,
where both cells are present. -/
def rowCoordKey (r : Row) : String := qstr (r.lat.getD 0) ++ "," ++ qstr (r.lng.getD 0)

/-- The sample-record projection of lines 256 and 273: the name, Lat,
Lng and Address columns of a row. -/
structure SampleRec where
  name : Option String
  lat : Option ℚ
  lng : Option ℚ
  address : Option String
deriving Repr, DecidableEq

def toSampleRec (r : Row) : SampleRec := ⟨r.name, r.lat, r.lng, r.address⟩

/-- drop_duplicates(subset=[name_column]): keep the first row for each
name value.  pandas treats NaN name cells as equal to each other here,
which matches equality on `Option String`. -/
def dedupByName (rows : List Row) : List Row :=
  rows.foldl (fun acc r => if acc.any (fun x => x.name = r.name) then acc else acc ++ [r]) []

/-- Number of distinct name values in a group, `len(set(names))` of
lines 252 and 269.  (The Python set treats NaN cells by object
identity; grouped NaN names are merged here, a corner none of the
stated properties touches.) -/
def distinctNameCount (rows : List Row) : Nat :=
  ((rows.map (fun r => r.name)).dedup).length

/-- One duplicate-coordinate group (lines 258 to 262). -/
structure CoordGroup where
  coordinates : String
  count : Nat
  sampleData : List SampleRec
deriving Repr, DecidableEq

/-- One duplicate-address group (lines 275 to 279). -/
structure AddrGroup where
  address : String
  count : Nat
  sampleData : List SampleRec
deriving Repr, DecidableEq

/-- The group emitted for one coordinate key: the key, the distinct
name count, and up to 10 name-deduplicated sample rows. -/
def mkCoordGroup (valid : List Row) (k : String) : CoordGroup :=
  let grp := valid.filter (fun r => rowCoordKey r = k)
  ⟨k, distinctNameCount grp, ((dedupByName grp).take 10).map toSampleRec⟩

/-- Duplicate-coordinate grouping, lines 246 to 262: group the valid
rows by their string-joined coordinate key and emit a group for every
key whose distinct name count reaches the threshold.  Keys are visited
in first-occurrence order; pandas visits them in sorted order, a
difference that does not affect which groups are emitted. -/
def duplicateCoordGroups (threshold : Nat) (valid : List Row) : List CoordGroup :=
  ((valid.map rowCoordKey).dedup).filterMap (fun k =>
    if threshold ≤ distinctNameCount (valid.filter (fun r => rowCoordKey r = k)) then
      some (mkCoordGroup valid k)
    else none)

def mkAddrGroup (validAddr : List Row) (a : String) : AddrGroup :=
  let grp := validAddr.filter (fun r => r.address = some a)
  ⟨a, distinctNameCount grp, ((dedupByName grp).take 10).map toSampleRec⟩

/-- Duplicate-address grouping, lines 264 to 279: same logic over the
non-null addresses of the valid rows. -/
def duplicateAddrGroups (threshold : Nat) (validAddr : List Row) : List AddrGroup :=
  ((validAddr.filterMap (fun r => r.address)).dedup).filterMap (fun a =>
    if threshold ≤ distinctNameCount (validAddr.filter (fun r => r.address = some a)) then
      some (mkAddrGroup validAddr a)
    else none)

structure PotentialErrors where
  duplicateCoordinates : List CoordGroup
  duplicateAddresses : List AddrGroup
deriving Repr, DecidableEq

/-- find_potential_errors, geocoding_functions.py lines 223 to 281. -/
def find_potential_errors (threshold : Nat) (df : List Row) : PotentialErrors :=
  let valid := validRows df
  if valid.isEmpty then ⟨[], []⟩
  else
    let validAddr := valid.filter (fun r => r.address.isSome)
    ⟨duplicateCoordGroups threshold valid,
     if validAddr.isEmpty then [] else duplicateAddrGroups threshold validAddr⟩

/-! ## SummaryReporter: display_summary -/

structure Summary where
  totalLocations : Nat
  locationsWithCoordinates : Nat
  locationsWithoutCoordinates : Nat
  successRate : ℚ
  cleanAndCorrectResults : Nat
  potentialErrors : PotentialErrors
  sampleResults : List Row
deriving Repr, DecidableEq

/-- The per-row normalization of display_summary (geocoding_functions.py
lines 299 to 306): when the address is missing, empty after
normalization, or equal to the supplied country term, null the
geocoding columns (and Maps_Link when that column exists). -/
def normalizeUpdatedRow (countryTerm : String) (hasMapsLink : Bool) (r : Row) : Row :=
  let addr := match r.address with
    | some a => a.pyNorm
    | none => ""
  if addr = "" ∨ addr = countryTerm then
    let r1 := { r with lat := none, lng := none, address := none }
    if hasMapsLink then { r1 with mapsLink := none } else r1
  else r

/-- display_summary, geocoding_functions.py lines 283 to 326.  The
country is lowercased then stripped (line 297); the anomaly pass runs
at its default threshold 5 (line 314). -/
def display_summary (country : String) (hasMapsLink : Bool) (df : List Row) :
    Summary × List Row :=
  let countryTerm := country.pyLower.pyStrip
  let updated := df.map (normalizeUpdatedRow countryTerm hasMapsLink)
  let total := updated.length
  let withCoords := (updated.filter (fun r => r.lat.isSome)).length
  let rate : ℚ := if 0 < total then ((withCoords : ℚ) / (total : ℚ)) * 100 else 0
  ({ totalLocations := total,
     locationsWithCoordinates := withCoords,
     locationsWithoutCoordinates := total - withCoords,
     successRate := rate,
     cleanAndCorrectResults := total - withCoords,
     potentialErrors := find_potential_errors 5 updated,
     sampleResults := updated.take 5 }, updated)

/-- Five rows with distinct names and identical coordinates, the
concrete scenario of C8. -/
def fiveRowsSameCoord : List Row :=
  [{ name := some "n1", lat := some 1, lng := some 2, address := some "A" },
   { name := some "n2", lat := some 1, lng := some 2, address := some "A" },
   { name := some "n3", lat := some 1, lng := some 2, address := some "A" },
   { name := some "n4", lat := some 1, lng := some 2, address := some "A" },
   { name := some "n5", lat := some 1, lng := some 2, address := some "A" }]

/-! ## The resumable runner

Both pipelines share the same loop shape: per pending row, build the
query, issue one provider call, on success apply a row update and save
every 10th row and on the last row, on a raised exception save
immediately, sleep longer, and continue.  The loop is embedded once,
parameterized by the query type, the response type, the row update and
the pacing, and instantiated for the Google and the Nominatim variant.
-/

/-- Point update of a list, used for the `result_df.at[idx, col]`
writes. -/
def updateAt : List α → Nat → (α → α) → List α
  | [], _, _ => []
  | a :: l, 0, f => f a :: l
  | a :: l, n + 1, f => a :: updateAt l n f

/-- The observable state of one batch run: the working table, every
table snapshot written to the output destination, the provider calls
made (pending-row index and query), the progress-callback invocations,
and the sleep durations. -/
structure RunState (β : Type) where
  df : List Row
  saves : List (List Row)
  calls : List (Nat × β)
  progress : List (Nat × Nat)
  sleeps : List ℚ
deriving Repr, DecidableEq

/-- The longer cooldown applied after a provider exception
(`time.sleep(2)`). -/
def errorCooldown : ℚ := 2

/-- Normal pacing of the Google pipeline (`time.sleep(0.3)`). -/
def googlePacing : ℚ := 3 / 10

/-- Normal pacing of the Nominatim pipeline (`time.sleep(1.1)`). -/
def nominatimPacing : ℚ := 11 / 10

/-- What varies between the two pipeline loops: the provider (a
function of the call number and the query, failing like a Python
exception), how a query is built from a row, how an accepted response
updates the row, and the inter-request pacing. -/
structure LoopCfg (β α : Type) where
  provider : Nat → β → Except Unit α
  mkQuery : Row → β
  update : α → Row → Row
  pacing : ℚ

/-- One iteration of the processing loop over the pending row `p.2`
at loop position `p.1` of `n`.  Success path: apply the row update,
save when `(i+1) % 10 == 0` or `i == n-1`, sleep the normal pacing,
report progress.  Exception path (geocoding_functions.py lines 160 to
171, nominatim_geocoding.py lines 161 to 172): leave the row as it is,
save immediately, sleep the cooldown, still report progress. -/
def procRow (cfg : LoopCfg β α) (n : Nat) (st : RunState β) (p : Nat × Nat) : RunState β :=
  let q := cfg.mkQuery (st.df.getD p.2 default)
  match cfg.provider st.calls.length q with
  | .error _ =>
    { df := st.df
      saves := st.saves ++ [st.df]
      calls := st.calls ++ [(p.2, q)]
      progress := st.progress ++ [(p.1 + 1, n)]
      sleeps := st.sleeps ++ [errorCooldown] }
  | .ok a =>
    let df2 := updateAt st.df p.2 (cfg.update a)
    { df := df2
      saves := if (p.1 + 1) % 10 == 0 || p.1 == n - 1 then st.saves ++ [df2] else st.saves
      calls := st.calls ++ [(p.2, q)]
      progress := st.progress ++ [(p.1 + 1, n)]
      sleeps := st.sleeps ++ [cfg.pacing] }

def runLoop (cfg : LoopCfg β α) (n : Nat) (st : RunState β) (ps : List (Nat × Nat)) :
    RunState β :=
  ps.foldl (procRow cfg n) st

/-- A previously written output file: its column list and its rows. -/
structure OutFile where
  cols : List String
  rows : List Row
deriving Repr, DecidableEq

/-- NaN-aware name matching of the resume phase
(`result_df[result_df[name_column] == row[name_column]]`): a NaN on
either side matches nothing. -/
def nameMatches (cur prior : Option String) : Bool :=
  match cur, prior with
  | some a, some b => a = b
  | _, _ => false

/-- The indices of the current table whose name cell matches the name
of a prior row. -/
def matchedIdxs (df : List Row) (r : Row) : List Nat :=
  (List.range df.length).filter (fun j => nameMatches (df.getD j default).name r.name)

/-- One prior row of the resume phase: when both coordinates are
present, copy fields onto every matching current row and record those
indices as processed. -/
def resumeStep (copyFields : Row → Row → Row) (acc : List Row × List Nat) (r : Row) :
    List Row × List Nat :=
  if r.lat.isSome && r.lng.isSome then
    (acc.1.map (fun c => if nameMatches c.name r.name then copyFields r c else c),
     acc.2 ++ matchedIdxs acc.1 r)
  else acc

/-- The resume phase shared by both pipelines (geocoding_functions.py
lines 44 to 66, nominatim_geocoding.py lines 46 to 72): when the output
destination exists and exposes the required columns, fold the prior
rows over the current table; otherwise resume is skipped entirely. -/
def resumePhase (mkCopy : OutFile → Row → Row → Row) (nameCol : String)
    (existing : Option OutFile) (df : List Row) : List Row × List Nat :=
  match existing with
  | none => (df, [])
  | some f =>
    if (["Lat", "Lng", "Address", nameCol]).all (fun c => f.cols.contains c) then
      f.rows.foldl (resumeStep (mkCopy f)) (df, [])
    else (df, [])

/-! ### The Google (primary provider) pipeline -/

/-- A Google geocoding request: the query string and the optional
locality component filter. -/
structure GQuery where
  query : String
  locality : Option String
deriving Repr, DecidableEq

/-- Resume copy of geocoding_functions.py lines 59 to 61: coordinates
and address only; Maps_Link and Locality_Filter are not copied. -/
def googleCopyFields (r c : Row) : Row :=
  { c with lat := r.lat, lng := r.lng, address := r.address }

/-- Query construction of the Google loop: with the
search_without_locality_filter flag the call carries no locality
component, otherwise it constrains locality to the location name
(lines 122 to 132). -/
def googleQuery (cityColPresent : Bool) (country : String) (snf : Bool) (r : Row) : GQuery :=
  ⟨buildQuery cityColPresent country r, if snf then none else some (r.name.getD "")⟩

/-- Row update of the Google loop (lines 134 to 146): when the
validator accepts the first result write Lat, Lng, Address and the maps
link; in every non-exception case write the Locality_Filter flag, which
records the configured mode. -/
def googleUpdate (country : String) (db : List CountryRec) (snf : Bool)
    (rs : List GeoResult) (r : Row) : Row :=
  let r1 := match rs with
    | res :: rest =>
      if is_valid_geocode_result (res :: rest) country db then
        { r with lat := some res.lat, lng := some res.lng,
                 address := some res.formattedAddress,
                 mapsLink := some ("https://www.google.com/maps?q=" ++
                   qstr res.lat ++ "," ++ qstr res.lng) }
      else r
    | [] => r
  { r1 with localityFilter := some (!snf) }

def googleCfg (provider : Nat → GQuery → Except Unit (List GeoResult))
    (cityColPresent : Bool) (country : String) (snf : Bool) (db : List CountryRec) :
    LoopCfg GQuery (List GeoResult) :=
  ⟨provider, googleQuery cityColPresent country snf, googleUpdate country db snf, googlePacing⟩

/-- get_coordinates_for_locations, geocoding_functions.py lines 7 to
177: resume from the prior output, process the pending rows in order,
and save the final table unconditionally after the loop (line 174). -/
def get_coordinates_for_locations (provider : Nat → GQuery → Except Unit (List GeoResult))
    (existing : Option OutFile) (country nameCol : String) (cityColPresent snf : Bool)
    (db : List CountryRec) (input : List Row) : RunState GQuery :=
  let rp := resumePhase (fun _ => googleCopyFields) nameCol existing input
  let rtp := (List.range rp.1.length).filter (fun j => !(decide (j ∈ rp.2)))
  let st := runLoop (googleCfg provider cityColPresent country snf db) rtp.length
    ⟨rp.1, [], [], [], []⟩ rtp.enum
  { st with saves := st.saves ++ [st.df] }

/-! ### The Nominatim (secondary provider) pipeline -/

/-- One Nominatim result: coordinates, display name, OSM reference. -/
structure NomResult where
  lat : ℚ
  lng : ℚ
  displayName : String
  osmId : Option Int := none
  osmType : Option String := none
deriving Repr, DecidableEq

/-- A completed Nominatim HTTP response: either status 200 with a
result list, or a non-200 status.  A transport exception is the
`Except.error` of the provider function instead. -/
inductive NomResp where
  | results (rs : List NomResult)
  | apiError (code : Nat)
deriving Repr, DecidableEq

/-- Resume copy of nominatim_geocoding.py lines 61 to 67: coordinates
and address, plus OSM_ID and OSM_Type when the existing file has those
columns. -/
def nomCopyFields (hasOsmId hasOsmType : Bool) (r c : Row) : Row :=
  let c1 := { c with lat := r.lat, lng := r.lng, address := r.address }
  let c2 := if hasOsmId then { c1 with osmId := r.osmId } else c1
  if hasOsmType then { c2 with osmType := r.osmType } else c2

/-- Row update of the Nominatim loop (lines 122 to 147): on status 200
with a non-empty result list, write the best match unconditionally (no
validation); on an empty list or a non-200 status, leave the row. -/
def nomUpdate (resp : NomResp) (r : Row) : Row :=
  match resp with
  | .results (best :: _) =>
    { r with lat := some best.lat, lng := some best.lng,
             address := some best.displayName,
             osmId := best.osmId, osmType := best.osmType }
  | .results [] => r
  | .apiError _ => r

def nomCfg (provider : Nat → String → Except Unit NomResp)
    (cityColPresent : Bool) (country : String) : LoopCfg String NomResp :=
  ⟨provider, buildQuery cityColPresent country, nomUpdate, nominatimPacing⟩

/-- get_coordinates_with_nominatim, nominatim_geocoding.py lines 8 to
178.  The countrycodes request parameter, derived by a best-effort
fuzzy pycountry lookup and silently dropped on failure, is part of the
opaque provider boundary here. -/
def get_coordinates_with_nominatim (provider : Nat → String → Except Unit NomResp)
    (existing : Option OutFile) (country nameCol : String) (cityColPresent : Bool)
    (input : List Row) : RunState String :=
  let rp := resumePhase
    (fun f => nomCopyFields (f.cols.contains "OSM_ID") (f.cols.contains "OSM_Type"))
    nameCol existing input
  let rtp := (List.range rp.1.length).filter (fun j => !(decide (j ∈ rp.2)))
  let st := runLoop (nomCfg provider cityColPresent country) rtp.length
    ⟨rp.1, [], [], [], []⟩ rtp.enum
  { st with saves := st.saves ++ [st.df] }

/-! ### filter_invalid_results -/

/-- filter_invalid_results, geocoding_functions.py lines 179 to 221:
for every row with a non-null address, when the normalized address
equals one of the country-only terms, null the coordinates and the
address (Maps_Link is left alone). -/
def filter_invalid_results (country : String) (db : List CountryRec) (df : List Row) :
    List Row :=
  df.map (fun r => match r.address with
    | some a =>
      if a.pyNorm ∈ countryTerms db country then
        { r with lat := none, lng := none, address := none }
      else r
    | none => r)

/-! ### Fresh-run characterization

For a run with no prior output file the pending rows are exactly the
row indices in order, and the whole loop is characterized by the three
functions below: the table after `t` steps, the sleep of step `t`, and
whether step `t` saved. -/

/-- The working table after the first `t` rows of a fresh run have been
processed: step `t` leaves the table alone on a provider exception and
applies the row update at index `t` otherwise. -/
def freshDf (cfg : LoopCfg β α) (input : List Row) : Nat → List Row
  | 0 => input
  | t + 1 =>
    match cfg.provider t (cfg.mkQuery (input.getD t default)) with
    | .error _ => freshDf cfg input t
    | .ok a => updateAt (freshDf cfg input t) t (cfg.update a)

/-- The sleep performed at step `t` of a fresh run: the long cooldown
after an exception, the normal pacing otherwise. -/
def sleepOf (cfg : LoopCfg β α) (input : List Row) (t : Nat) : ℚ :=
  match cfg.provider t (cfg.mkQuery (input.getD t default)) with
  | .error _ => errorCooldown
  | .ok _ => cfg.pacing

/-- Whether step `t` of a fresh run over `n` pending rows writes the
output destination: always after an exception, otherwise on every 10th
row and on the last row. -/
def savedAt (cfg : LoopCfg β α) (input : List Row) (n t : Nat) : Bool :=
  match cfg.provider t (cfg.mkQuery (input.getD t default)) with
  | .error _ => true
  | .ok _ => (t + 1) % 10 == 0 || t == n - 1

/-- The resume-phase invariant, for a copy function establishing the
field relation `P`: every processed index is in range and stands in
relation `P` to some prior row with both coordinates present whose name
matches it. -/
def ResumeInv (Q : Row → Prop) (P : Row → Row → Prop) (acc : List Row × List Nat) : Prop :=
  ∀ j ∈ acc.2, j < acc.1.length ∧ ∃ r, Q r ∧ (r.lat.isSome && r.lng.isSome) = true ∧
    nameMatches ((acc.1.getD j default).name) r.name = true ∧
    P (acc.1.getD j default) r

/-- The common shape of both pipelines once the required columns are
known to be present: resume fold with the copy function `g`, loop over
the pending rows, final unconditional save. -/
def resumeRun (cfg : LoopCfg β α) (g : Row → Row → Row) (input rows : List Row) :
    RunState β :=
  let rp := rows.foldl (resumeStep g) (input, [])
  let rtp := (List.range rp.1.length).filter (fun i => !(decide (i ∈ rp.2)))
  let st := runLoop cfg rtp.length ⟨rp.1, [], [], [], []⟩ rtp.enum
  { st with saves := st.saves ++ [st.df] }

/-! ### Concrete scenarios -/

/-- A deterministic provider stub that always finds the same street
address. -/
def okProvider : Nat → GQuery → Except Unit (List GeoResult) :=
  fun _ _ => .ok [⟨"12 rue x", 1, 2⟩]

/-- A provider stub that always raises (transport failure). -/
def errProvider : Nat → GQuery → Except Unit (List GeoResult) :=
  fun _ _ => .error ()

/-- A provider stub whose only result is a country-level centroid. -/
def frProvider : Nat → GQuery → Except Unit (List GeoResult) :=
  fun _ _ => .ok [⟨"France", 46, 2⟩]

/-- A Nominatim provider stub whose best match is a country-level
display name. -/
def nomProviderFr : Nat → String → Except Unit NomResp :=
  fun _ _ => .ok (NomResp.results [⟨46, 2, "France", some 1, some "node"⟩])

def input1 : List Row := [{ name := some "gare" }]

/-- First Google run on `input1` against a fresh destination. -/
def run1 : RunState GQuery :=
  get_coordinates_for_locations okProvider none "" "remote_name" false false [] input1

/-- The output file written by `run1`: its final table under the full
Google column set. -/
def out1 : OutFile :=
  ⟨["remote_name", "Lat", "Lng", "Address", "Maps_Link", "Locality_Filter"], run1.df⟩

/-- Second Google run on the same input resuming from the output of the
first run. -/
def run2 : RunState GQuery :=
  get_coordinates_for_locations okProvider (some out1) "" "remote_name" false false [] input1

def input23 : List Row := List.replicate 23 { name := some "s" }

/-- A fresh Google run over 23 rows with a non-failing provider stub,
the checkpoint-cadence scenario of C4. -/
def run23 : RunState GQuery :=
  get_coordinates_for_locations okProvider none "" "remote_name" false false [] input23

/-- A Nominatim run whose provider returns a country-only display name,
the scenario of C2. -/
def runN : RunState String :=
  get_coordinates_with_nominatim nomProviderFr none "France" "remote_name" false
    [{ name := some "gare" }]

/-- A locality-filtered Google run whose filtered result is a
country-only address, the scenario of C3. -/
def runG3 : RunState GQuery :=
  get_coordinates_for_locations frProvider none "France" "remote_name" false false
    pycountrySample [{ name := some "gare" }]

/-- A fresh Google run over one row whose provider raises. -/
def runE : RunState GQuery :=
  get_coordinates_for_locations errProvider none "" "remote_name" false false [] input1

/-- A Nominatim provider stub that always raises. -/
def errProviderN : Nat → String → Except Unit NomResp := fun _ _ => .error ()

/-- A prior output file exposing the full column set of both pipelines,
with one fully resolved row matching `input1` by name. -/
def outB : OutFile :=
  ⟨["remote_name", "Lat", "Lng", "Address", "Maps_Link", "Locality_Filter",
    "OSM_ID", "OSM_Type"],
   [{ name := some "gare", lat := some 46, lng := some 2, address := some "addr",
      osmId := some 7, osmType := some "node" }]⟩

/-- A fresh Nominatim run over one row whose provider raises. -/
def runEN : RunState String :=
  get_coordinates_with_nominatim errProviderN none "" "remote_name" false input1

/-! ### Frame model

The Python functions receive a pandas frame by reference and start with
`df.copy()`; every subsequent write targets the copy.  To state that as
a theorem rather than a triviality, frames live in an explicit heap of
frame slots, the entry copy allocates a fresh slot, and every write of
the loop goes to that slot. -/

structure Heap where
  frames : List (List Row)
deriving Repr, DecidableEq

def readF (h : Heap) (i : Nat) : List Row := h.frames.getD i []

def writeF (h : Heap) (i : Nat) (df : List Row) : Heap := ⟨h.frames.set i df⟩

/-- `df.copy()`: allocate a fresh frame slot holding the copied
contents and return its identity. -/
def allocF (h : Heap) (df : List Row) : Heap × Nat := (⟨h.frames ++ [df]⟩, h.frames.length)

/-- The processing loop at heap level: each iteration reads the working
frame, performs one `procRow` step, and writes the updated table back
to the same working slot `rid`. -/
def runLoopH (cfg : LoopCfg β α) (n rid : Nat) (start : Heap × RunState β)
    (ps : List (Nat × Nat)) : Heap × RunState β :=
  ps.foldl (fun hs p =>
    let st := procRow cfg n { hs.2 with df := readF hs.1 rid } p
    (writeF hs.1 rid st.df, st)) start

/-- Heap-level get_coordinates_for_locations: copy the caller frame on
entry (line 28), apply the resume phase and every loop write to the
copy, and return the identity of the copy. -/
def get_coordinates_for_locationsH (provider : Nat → GQuery → Except Unit (List GeoResult))
    (existing : Option OutFile) (country nameCol : String) (cityColPresent snf : Bool)
    (db : List CountryRec) (h : Heap) (inputId : Nat) : Heap × Nat × RunState GQuery :=
  let a := allocF h (readF h inputId)
  let rp := resumePhase (fun _ => googleCopyFields) nameCol existing (readF a.1 a.2)
  let h2 := writeF a.1 a.2 rp.1
  let rtp := (List.range rp.1.length).filter (fun j => !(decide (j ∈ rp.2)))
  let hs := runLoopH (googleCfg provider cityColPresent country snf db) rtp.length a.2
    (h2, ⟨readF h2 a.2, [], [], [], []⟩) rtp.enum
  (hs.1, a.2, { hs.2 with saves := hs.2.saves ++ [hs.2.df] })

/-- Heap-level get_coordinates_with_nominatim (copy on entry at
nominatim_geocoding.py line 32). -/
def get_coordinates_with_nominatimH (provider : Nat → String → Except Unit NomResp)
    (existing : Option OutFile) (country nameCol : String) (cityColPresent : Bool)
    (h : Heap) (inputId : Nat) : Heap × Nat × RunState String :=
  let a := allocF h (readF h inputId)
  let rp := resumePhase
    (fun f => nomCopyFields (f.cols.contains "OSM_ID") (f.cols.contains "OSM_Type"))
    nameCol existing (readF a.1 a.2)
  let h2 := writeF a.1 a.2 rp.1
  let rtp := (List.range rp.1.length).filter (fun j => !(decide (j ∈ rp.2)))
  let hs := runLoopH (nomCfg provider cityColPresent country) rtp.length a.2
    (h2, ⟨readF h2 a.2, [], [], [], []⟩) rtp.enum
  (hs.1, a.2, { hs.2 with saves := hs.2.saves ++ [hs.2.df] })

/-- Heap-level filter_invalid_results (copy on entry at line 190). -/
def filter_invalid_resultsH (country : String) (db : List CountryRec)
    (h : Heap) (inputId : Nat) : Heap × Nat :=
  let a := allocF h (readF h inputId)
  (writeF a.1 a.2 (filter_invalid_results country db (readF a.1 a.2)), a.2)

/-- Heap-level display_summary (copy on entry at line 296). -/
def display_summaryH (country : String) (hasMapsLink : Bool)
    (h : Heap) (inputId : Nat) : Heap × Nat × Summary :=
  let a := allocF h (readF h inputId)
  let s := display_summary country hasMapsLink (readF a.1 a.2)
  (writeF a.1 a.2 s.2, a.2, s.1)

/-! ## Theorems -/

theorem is_valid_false_iff (country : String) (db : List CountryRec)
    (res : GeoResult) (rest : List GeoResult) :
    is_valid_geocode_result (res :: rest) country db = false ↔
      res.formattedAddress.pyNorm = "" ∨
        res.formattedAddress.pyNorm ∈ countryTerms db country := by
  by_cases h1 : res.formattedAddress.pyNorm = "" <;>
    by_cases h2 : res.formattedAddress.pyNorm ∈ countryTerms db country <;>
      simp [is_valid_geocode_result, h1, h2]

/-- C7: for a row with non-empty name, city and country the query is
exactly `name, city, country`; an absent or empty city, an absent city
column, or an empty country drops the corresponding segment together
with its separator, leaving the remaining segments in order with no
dangling separator. -/
theorem buildQuery_spec (name city country : String)
    (hn : name ≠ "") (hc : city ≠ "") (hk : country ≠ "") :
    buildQuery true country { name := some name, city := some city } =
        name ++ ", " ++ city ++ ", " ++ country ∧
      buildQuery true country { name := some name, city := none } =
        name ++ ", " ++ country ∧
      buildQuery true country { name := some name, city := some "" } =
        name ++ ", " ++ country ∧
      buildQuery false country { name := some name, city := some city } =
        name ++ ", " ++ country ∧
      buildQuery true "" { name := some name, city := some city } =
        name ++ ", " ++ city ∧
      buildQuery true "" { name := some name, city := none } = name := by
  refine ⟨?_, ?_, ?_, ?_, ?_, ?_⟩ <;> simp [buildQuery, hc, hk]

theorem buildQuery_spec_witness :
    buildQuery true "France" { name := some "Gare du Nord", city := some "Paris" } =
      "Gare du Nord, Paris, France" :=
  (buildQuery_spec "Gare du Nord" "Paris" "France" (by decide) (by decide) (by decide)).1

/-- C6: the validator rejects a non-empty candidate list exactly when
the first candidate address, trimmed and lowercased, is empty or is a
member of the country-only set; that set contains the supplied country
trimmed and lowercased, and for every known country its common name,
official name and both codes, lowercased.  Concretely, `france` is
rejected when country is France, `fr` and `fra` are rejected whatever
the declared country, and a full street address is accepted. -/
theorem result_validator_spec :
    (∀ (db : List CountryRec) (country : String) (res : GeoResult) (rest : List GeoResult),
        is_valid_geocode_result (res :: rest) country db = false ↔
          res.formattedAddress.pyNorm = "" ∨
            res.formattedAddress.pyNorm ∈ countryTerms db country) ∧
      (∀ (db : List CountryRec) (country : String), country ≠ "" →
         country.pyNorm ∈ countryTerms db country) ∧
      (∀ (db : List CountryRec) (country : String) (c : CountryRec), c ∈ db →
         c.name.pyLower ∈ countryTerms db country ∧
           (∀ o, c.officialName = some o → o ≠ "" → o.pyLower ∈ countryTerms db country) ∧
           (c.alpha2 ≠ "" → c.alpha2.pyLower ∈ countryTerms db country) ∧
           (c.alpha3 ≠ "" → c.alpha3.pyLower ∈ countryTerms db country)) ∧
      is_valid_geocode_result [⟨"france", 46, 2⟩] "France" pycountrySample = false ∧
      (∀ country, is_valid_geocode_result [⟨"fr", 46, 2⟩] country pycountrySample = false) ∧
      (∀ country, is_valid_geocode_result [⟨"fra", 46, 2⟩] country pycountrySample = false) ∧
      is_valid_geocode_result [⟨"12 rue de la paix, paris, france", 48, 2⟩] "France"
          pycountrySample = true := by
  have hmem : ∀ (db : List CountryRec) (country : String) (x : String),
      (∃ c ∈ db, x ∈ [c.name.pyLower] ++
          (match c.officialName with
            | some o => if o ≠ "" then [o.pyLower] else []
            | none => []) ++
          (if c.alpha2 ≠ "" then [c.alpha2.pyLower] else []) ++
          (if c.alpha3 ≠ "" then [c.alpha3.pyLower] else [])) →
      x ∈ countryTerms db country := by
    intro db country x hx
    unfold countryTerms
    refine List.mem_append_right _ ?_
    rw [List.mem_flatten]
    obtain ⟨c, hc, hxc⟩ := hx
    exact ⟨_, List.mem_map_of_mem _ hc, hxc⟩
  refine ⟨fun db country res rest => is_valid_false_iff country db res rest,
    ?_, ?_, ?_, ?_, ?_, ?_⟩
  · intro db country h
    unfold countryTerms
    rw [if_pos h]
    exact List.mem_append_left _ (List.mem_singleton.mpr rfl)
  · intro db country c hc
    refine ⟨hmem db country _ ⟨c, hc, by simp⟩, ?_, ?_, ?_⟩
    · intro o ho hne
      refine hmem db country _ ⟨c, hc, ?_⟩
      rw [ho]
      simp [hne]
    · intro h2
      exact hmem db country _ ⟨c, hc, by simp [h2]⟩
    · intro h3
      exact hmem db country _ ⟨c, hc, by simp [h3]⟩
  · decide
  · intro country
    have h : ("fr".pyNorm : String) ∈ countryTerms pycountrySample country := by
      unfold countryTerms
      exact List.mem_append_right _ (by decide)
    simp [is_valid_geocode_result, h]
  · intro country
    have h : ("fra".pyNorm : String) ∈ countryTerms pycountrySample country := by
      unfold countryTerms
      exact List.mem_append_right _ (by decide)
    simp [is_valid_geocode_result, h]
  · decide

theorem result_validator_spec_witness :
    ("France".pyNorm ∈ countryTerms pycountrySample "France") ∧
      "FRA".pyLower ∈ countryTerms pycountrySample "Belgium" :=
  ⟨result_validator_spec.2.1 pycountrySample "France" (by decide),
   (result_validator_spec.2.2.1 pycountrySample "Belgium"
      ⟨"France", some "French Republic", "FR", "FRA"⟩ (by decide)).2.2.2 (by decide)⟩

/-- C8: over the rows with both coordinates present, a
duplicate-coordinate group is emitted exactly for the string-joined
coordinate keys whose distinct name count reaches the threshold, and it
carries that count and at most 10 name-deduplicated sample rows.
Concretely, five distinct-name rows on one coordinate pair give exactly
one group of count 5 at threshold 5 and none at threshold 6. -/
theorem find_potential_errors_spec :
    (∀ (df : List Row) (t : Nat) (g : CoordGroup),
        g ∈ (find_potential_errors t df).duplicateCoordinates ↔
          ∃ k ∈ ((validRows df).map rowCoordKey).dedup,
            t ≤ distinctNameCount ((validRows df).filter (fun r => rowCoordKey r = k)) ∧
              g = mkCoordGroup (validRows df) k) ∧
      (∀ (df : List Row) (t : Nat) (g : CoordGroup),
        g ∈ (find_potential_errors t df).duplicateCoordinates →
          g.sampleData.length ≤ 10) ∧
      ((find_potential_errors 5 fiveRowsSameCoord).duplicateCoordinates.map
          (fun g => (g.coordinates, g.count))) = [(rowCoordKey (fiveRowsSameCoord.getD 0 default), 5)] ∧
      (find_potential_errors 6 fiveRowsSameCoord).duplicateCoordinates = [] := by
  have hchar : ∀ (df : List Row) (t : Nat) (g : CoordGroup),
      g ∈ (find_potential_errors t df).duplicateCoordinates ↔
        ∃ k ∈ ((validRows df).map rowCoordKey).dedup,
          t ≤ distinctNameCount ((validRows df).filter (fun r => rowCoordKey r = k)) ∧
            g = mkCoordGroup (validRows df) k := by
    intro df t g
    unfold find_potential_errors
    by_cases hv : (validRows df).isEmpty
    · rw [if_pos hv]
      have : validRows df = [] := List.isEmpty_iff.mp hv
      simp [this]
    · rw [if_neg hv]
      show g ∈ duplicateCoordGroups t (validRows df) ↔ _
      unfold duplicateCoordGroups
      rw [List.mem_filterMap]
      constructor
      · rintro ⟨k, hk, hg⟩
        by_cases ht : t ≤ distinctNameCount ((validRows df).filter (fun r => rowCoordKey r = k))
        · rw [if_pos ht] at hg
          exact ⟨k, hk, ht, (Option.some_inj.mp hg).symm⟩
        · rw [if_neg ht] at hg
          exact absurd hg (by simp)
      · rintro ⟨k, hk, ht, hg⟩
        exact ⟨k, hk, by rw [if_pos ht, hg]⟩
  refine ⟨hchar, ?_, by decide, by decide⟩
  intro df t g hg
  obtain ⟨k, _, _, hg⟩ := (hchar df t g).mp hg
  subst hg
  simpa [mkCoordGroup] using List.length_take_le 10 _

theorem find_potential_errors_spec_witness :
    (mkCoordGroup (validRows fiveRowsSameCoord) (rowCoordKey (fiveRowsSameCoord.getD 0 default))
        ∈ (find_potential_errors 5 fiveRowsSameCoord).duplicateCoordinates) ∧
      (mkCoordGroup (validRows fiveRowsSameCoord)
          (rowCoordKey (fiveRowsSameCoord.getD 0 default))).sampleData.length ≤ 10 := by
  have h1 := (find_potential_errors_spec.1 fiveRowsSameCoord 5
    (mkCoordGroup (validRows fiveRowsSameCoord)
      (rowCoordKey (fiveRowsSameCoord.getD 0 default)))).mpr
    ⟨rowCoordKey (fiveRowsSameCoord.getD 0 default), by decide, by decide, rfl⟩
  exact ⟨h1, find_potential_errors_spec.2.1 fiveRowsSameCoord 5 _ h1⟩

/-- C9: the success rate equals resolved over total times 100 whenever
the table is non-empty, and is 0 for an empty table, the division being
guarded rather than faulting. -/
theorem display_summary_success_rate (country : String) (hasMapsLink : Bool)
    (df : List Row) :
    (0 < df.length →
        ((display_summary country hasMapsLink df).1).successRate =
          (((display_summary country hasMapsLink df).1).locationsWithCoordinates /
              ((display_summary country hasMapsLink df).1).totalLocations : ℚ) * 100) ∧
      (df = [] →
        ((display_summary country hasMapsLink df).1).successRate = 0 ∧
          ((display_summary country hasMapsLink df).1).totalLocations = 0) := by
  constructor
  · intro h
    have hlen : 0 < (df.map (normalizeUpdatedRow (country.pyLower.pyStrip) hasMapsLink)).length := by
      simpa using h
    simp only [display_summary, if_pos hlen]
  · intro h
    subst h
    simp [display_summary]

theorem display_summary_success_rate_witness :
    ((display_summary "France" true fiveRowsSameCoord).1).successRate =
        (((display_summary "France" true fiveRowsSameCoord).1).locationsWithCoordinates /
            ((display_summary "France" true fiveRowsSameCoord).1).totalLocations : ℚ) * 100 ∧
      ((display_summary "France" true []).1).successRate = 0 :=
  ⟨(display_summary_success_rate "France" true fiveRowsSameCoord).1 (by decide),
   ((display_summary_success_rate "France" true []).2 rfl).1⟩

theorem updateAt_length (l : List α) (i : Nat) (f : α → α) :
    (updateAt l i f).length = l.length := by
  induction l generalizing i with
  | nil => rfl
  | cons a l ih => cases i <;> simp [updateAt, ih]

theorem get?_updateAt_ne (l : List α) (i : Nat) (f : α → α) (j : Nat) (h : j ≠ i) :
    (updateAt l i f).get? j = l.get? j := by
  induction l generalizing i j with
  | nil => rfl
  | cons a l ih =>
    cases i with
    | zero => cases j with
      | zero => exact absurd rfl h
      | succ j => simp [updateAt]
    | succ i => cases j with
      | zero => simp [updateAt]
      | succ j => simpa [updateAt] using ih i j (fun hc => h (by rw [hc]))

theorem get?_updateAt_self (l : List α) (i : Nat) (f : α → α) :
    (updateAt l i f).get? i = (l.get? i).map f := by
  induction l generalizing i with
  | nil => rfl
  | cons a l ih =>
    cases i with
    | zero => simp [updateAt]
    | succ i => simpa [updateAt] using ih i

/-! ### Loop lemmas -/

theorem procRow_progress (cfg : LoopCfg β α) (n : Nat) (st : RunState β) (p : Nat × Nat) :
    (procRow cfg n st p).progress = st.progress ++ [(p.1 + 1, n)] := by
  unfold procRow
  cases h : cfg.provider st.calls.length (cfg.mkQuery (st.df.getD p.2 default)) <;>
    simp only [h]

theorem procRow_calls (cfg : LoopCfg β α) (n : Nat) (st : RunState β) (p : Nat × Nat) :
    (procRow cfg n st p).calls =
      st.calls ++ [(p.2, cfg.mkQuery (st.df.getD p.2 default))] := by
  unfold procRow
  cases h : cfg.provider st.calls.length (cfg.mkQuery (st.df.getD p.2 default)) <;>
    simp only [h]

theorem procRow_df_length (cfg : LoopCfg β α) (n : Nat) (st : RunState β) (p : Nat × Nat) :
    (procRow cfg n st p).df.length = st.df.length := by
  unfold procRow
  cases h : cfg.provider st.calls.length (cfg.mkQuery (st.df.getD p.2 default)) with
  | error e => simp only [h]
  | ok a => simp only [h]; exact updateAt_length _ _ _

theorem procRow_df_get?_ne (cfg : LoopCfg β α) (n : Nat) (st : RunState β) (p : Nat × Nat)
    (j : Nat) (h : j ≠ p.2) :
    (procRow cfg n st p).df.get? j = st.df.get? j := by
  unfold procRow
  cases hp : cfg.provider st.calls.length (cfg.mkQuery (st.df.getD p.2 default)) with
  | error e => simp only [hp]
  | ok a => simp only [hp]; exact get?_updateAt_ne _ _ _ _ h

theorem procRow_saves_mono (cfg : LoopCfg β α) (n : Nat) (st : RunState β) (p : Nat × Nat) :
    ∃ t, (procRow cfg n st p).saves = st.saves ++ t := by
  unfold procRow
  cases h : cfg.provider st.calls.length (cfg.mkQuery (st.df.getD p.2 default)) with
  | error e => exact ⟨[st.df], by simp only [h]⟩
  | ok a =>
    by_cases hc : ((p.1 + 1) % 10 == 0 || p.1 == n - 1) = true
    · exact ⟨_, by simp only [h]; rw [if_pos hc]⟩
    · exact ⟨[], by simp only [h]; rw [if_neg hc]; simp⟩

theorem runLoop_cons (cfg : LoopCfg β α) (n : Nat) (st : RunState β) (p : Nat × Nat)
    (ps : List (Nat × Nat)) :
    runLoop cfg n st (p :: ps) = runLoop cfg n (procRow cfg n st p) ps := rfl

theorem runLoop_append (cfg : LoopCfg β α) (n : Nat) (st : RunState β)
    (ps qs : List (Nat × Nat)) :
    runLoop cfg n st (ps ++ qs) = runLoop cfg n (runLoop cfg n st ps) qs :=
  List.foldl_append _ _ _ _

theorem runLoop_progress (cfg : LoopCfg β α) (n : Nat) (st : RunState β)
    (ps : List (Nat × Nat)) :
    (runLoop cfg n st ps).progress = st.progress ++ ps.map (fun p => (p.1 + 1, n)) := by
  induction ps generalizing st with
  | nil => simp [runLoop]
  | cons p ps ih =>
    rw [runLoop_cons, ih, procRow_progress]
    simp

theorem runLoop_df_length (cfg : LoopCfg β α) (n : Nat) (st : RunState β)
    (ps : List (Nat × Nat)) :
    (runLoop cfg n st ps).df.length = st.df.length := by
  induction ps generalizing st with
  | nil => rfl
  | cons p ps ih => rw [runLoop_cons, ih, procRow_df_length]

theorem runLoop_df_get?_ne (cfg : LoopCfg β α) (n : Nat) (st : RunState β)
    (ps : List (Nat × Nat)) (j : Nat) (h : ∀ p ∈ ps, p.2 ≠ j) :
    (runLoop cfg n st ps).df.get? j = st.df.get? j := by
  induction ps generalizing st with
  | nil => rfl
  | cons p ps ih =>
    rw [runLoop_cons, ih _ (fun q hq => h q (List.mem_cons_of_mem p hq)),
      procRow_df_get?_ne]
    exact fun hc => h p (List.mem_cons_self p ps) hc.symm

theorem runLoop_calls_sub (cfg : LoopCfg β α) (n : Nat) (st : RunState β)
    (ps : List (Nat × Nat)) :
    ∀ c ∈ (runLoop cfg n st ps).calls, c ∈ st.calls ∨ c.1 ∈ ps.map Prod.snd := by
  induction ps generalizing st with
  | nil => exact fun c hc => Or.inl hc
  | cons p ps ih =>
    intro c hc
    rw [runLoop_cons] at hc
    rcases ih _ c hc with h1 | h2
    · rw [procRow_calls] at h1
      rcases List.mem_append.mp h1 with h3 | h4
      · exact Or.inl h3
      · right
        rw [List.mem_singleton.mp h4]
        exact List.mem_cons_self _ _
    · exact Or.inr (List.mem_cons_of_mem _ h2)

theorem runLoop_saves_mono (cfg : LoopCfg β α) (n : Nat) (st : RunState β)
    (ps : List (Nat × Nat)) :
    ∃ t, (runLoop cfg n st ps).saves = st.saves ++ t := by
  induction ps generalizing st with
  | nil => exact ⟨[], by simp [runLoop]⟩
  | cons p ps ih =>
    rw [runLoop_cons]
    obtain ⟨t1, ht1⟩ := ih (procRow cfg n st p)
    obtain ⟨t2, ht2⟩ := procRow_saves_mono cfg n st p
    exact ⟨t2 ++ t1, by rw [ht1, ht2, List.append_assoc]⟩

theorem zip_self (l : List α) : l.zip l = l.map (fun a => (a, a)) := by
  induction l with
  | nil => rfl
  | cons a l ih => simp [ih]

theorem enum_range (m : Nat) :
    (List.range m).enum = (List.range m).map (fun i => (i, i)) := by
  rw [List.enum_eq_zip_range, List.length_range, zip_self]

theorem freshDf_length (cfg : LoopCfg β α) (input : List Row) (t : Nat) :
    (freshDf cfg input t).length = input.length := by
  induction t with
  | zero => rfl
  | succ t ih =>
    rw [freshDf]
    cases h : cfg.provider t (cfg.mkQuery (input.getD t default)) with
    | error e => simpa only using ih
    | ok a => simp only; rw [updateAt_length]; exact ih

theorem freshDf_get?_ge (cfg : LoopCfg β α) (input : List Row) (t j : Nat) (h : t ≤ j) :
    (freshDf cfg input t).get? j = input.get? j := by
  induction t with
  | zero => rfl
  | succ t ih =>
    rw [freshDf]
    cases hp : cfg.provider t (cfg.mkQuery (input.getD t default)) with
    | error e => simpa only using ih (by omega)
    | ok a =>
      simp only
      rw [get?_updateAt_ne _ _ _ j (by omega)]
      exact ih (by omega)

theorem freshDf_get?_stable (cfg : LoopCfg β α) (input : List Row) (k t : Nat)
    (h : k + 1 ≤ t) :
    (freshDf cfg input t).get? k = (freshDf cfg input (k + 1)).get? k := by
  induction t with
  | zero => omega
  | succ t ih =>
    rcases Nat.lt_or_ge (k + 1) (t + 1) with hlt | hge
    · rw [freshDf]
      cases hp : cfg.provider t (cfg.mkQuery (input.getD t default)) with
      | error e => simpa only using ih (by omega)
      | ok a =>
        simp only
        rw [get?_updateAt_ne _ _ _ k (by omega)]
        exact ih (by omega)
    · have : k + 1 = t + 1 := le_antisymm h hge
      rw [this]

theorem freshDf_getD (cfg : LoopCfg β α) (input : List Row) (k : Nat) :
    (freshDf cfg input k).getD k default = input.getD k default := by
  show ((freshDf cfg input k).get? k).getD default = (input.get? k).getD default
  rw [freshDf_get?_ge cfg input k k le_rfl]

/-- The whole fresh-run loop in one equation: after `k` steps, the
table is `freshDf k`, the saved snapshots are the post-step tables of
the saving steps, one call, one progress report and one sleep were made
per step. -/
theorem freshLoop_spec (cfg : LoopCfg β α) (n : Nat) (input : List Row) (k : Nat) :
    runLoop cfg n ⟨input, [], [], [], []⟩ ((List.range k).map (fun i => (i, i))) =
      ⟨freshDf cfg input k,
       ((List.range k).filter (savedAt cfg input n)).map (fun t => freshDf cfg input (t + 1)),
       (List.range k).map (fun t => (t, cfg.mkQuery (input.getD t default))),
       (List.range k).map (fun i => (i + 1, n)),
       (List.range k).map (sleepOf cfg input)⟩ := by
  induction k with
  | zero => rfl
  | succ k ih =>
    rw [List.range_succ, List.map_append, runLoop_append, ih]
    show procRow cfg n _ (k, k) = _
    unfold procRow
    simp only [freshDf_getD, List.length_map, List.length_range]
    cases hp : cfg.provider k (cfg.mkQuery (input.getD k default)) with
    | error e =>
      have hdf : freshDf cfg input (k + 1) = freshDf cfg input k := by rw [freshDf, hp]
      have hsa : savedAt cfg input n k = true := by rw [savedAt, hp]
      have hsl : sleepOf cfg input k = errorCooldown := by rw [sleepOf, hp]
      simp only [List.range_succ, List.filter_append, List.map_append, hdf, hsa, hsl,
        List.filter_cons, List.filter_nil, List.map_cons, List.map_nil]
      simp [hdf]
    | ok a =>
      have hdf : freshDf cfg input (k + 1) = updateAt (freshDf cfg input k) k (cfg.update a) := by
        rw [freshDf, hp]
      have hsa : savedAt cfg input n k = ((k + 1) % 10 == 0 || k == n - 1) := by
        rw [savedAt, hp]
      have hsl : sleepOf cfg input k = cfg.pacing := by rw [sleepOf, hp]
      by_cases hc : ((k + 1) % 10 == 0 || k == n - 1) = true
      · simp only [List.range_succ, List.filter_append, List.map_append, hdf, hsa, hsl,
          List.filter_cons, List.filter_nil, List.map_cons, List.map_nil, hc]
        simp [hc, hdf]
      · simp only [List.range_succ, List.filter_append, List.map_append, hdf, hsa, hsl,
          List.filter_cons, List.filter_nil, List.map_cons, List.map_nil]
        simp [hc, hdf, Bool.of_not_eq_true hc]

theorem getD_mem (l : List α) [Inhabited α] (k : Nat) (h : k < l.length) :
    l.getD k default ∈ l := by
  show (l.get? k).getD default ∈ l
  rw [List.get?_eq_get h]
  exact List.get_mem l k h

/-- The fresh Google run in one equation: with no prior output file the
pending rows are `0, 1, ...` in order and `freshLoop_spec` applies,
followed by the unconditional final save of line 174. -/
theorem google_fresh_run_eq (provider : Nat → GQuery → Except Unit (List GeoResult))
    (country nameCol : String) (cp snf : Bool) (db : List CountryRec) (input : List Row) :
    get_coordinates_for_locations provider none country nameCol cp snf db input =
      ⟨freshDf (googleCfg provider cp country snf db) input input.length,
       ((List.range input.length).filter
           (savedAt (googleCfg provider cp country snf db) input input.length)).map
           (fun t => freshDf (googleCfg provider cp country snf db) input (t + 1)) ++
         [freshDf (googleCfg provider cp country snf db) input input.length],
       (List.range input.length).map
         (fun t => (t, googleQuery cp country snf (input.getD t default))),
       (List.range input.length).map (fun i => (i + 1, input.length)),
       (List.range input.length).map
         (sleepOf (googleCfg provider cp country snf db) input)⟩ := by
  unfold get_coordinates_for_locations
  simp only [resumePhase]
  have h2 : ((List.range input.length).filter (fun j => !(decide (j ∈ ([] : List Nat))))) =
      List.range input.length := by simp
  rw [h2, enum_range, List.length_range, freshLoop_spec]
  rfl

/-- The final table of a fresh Google run at a pending row index: the
input row when the provider raised there, the updated row otherwise. -/
theorem google_fresh_df_getD (provider : Nat → GQuery → Except Unit (List GeoResult))
    (country nameCol : String) (cp snf : Bool) (db : List CountryRec) (input : List Row)
    (k : Nat) (hk : k < input.length) :
    (get_coordinates_for_locations provider none country nameCol cp snf db input).df.getD
        k default =
      match provider k (googleQuery cp country snf (input.getD k default)) with
      | .error _ => input.getD k default
      | .ok rs => googleUpdate country db snf rs (input.getD k default) := by
  rw [google_fresh_run_eq]
  show ((freshDf (googleCfg provider cp country snf db) input input.length).get? k).getD
      default = _
  rw [freshDf_get?_stable _ _ k input.length (by omega), freshDf]
  cases hp : (googleCfg provider cp country snf db).provider k
      ((googleCfg provider cp country snf db).mkQuery (input.getD k default)) with
  | error e =>
    have hp2 : provider k (googleQuery cp country snf (input.getD k default)) =
        .error e := hp
    rw [hp2]
    simp only
    rw [freshDf_get?_ge _ _ k k le_rfl]
    rfl
  | ok rs =>
    have hp2 : provider k (googleQuery cp country snf (input.getD k default)) = .ok rs := hp
    rw [hp2]
    simp only
    rw [get?_updateAt_self, freshDf_get?_ge _ _ k k le_rfl, List.get?_eq_get hk]
    have hx : input.getD k default = input.get ⟨k, hk⟩ := by
      show (input.get? k).getD default = _
      rw [List.get?_eq_get hk]
      rfl
    rw [hx]
    rfl

/-- The final fresh-run table at a pending row, for any loop
configuration: the input row when the provider raised there, the
updated row otherwise. -/
theorem freshDf_final_getD (cfg : LoopCfg β α) (input : List Row) (k : Nat)
    (hk : k < input.length) :
    (freshDf cfg input input.length).getD k default =
      match cfg.provider k (cfg.mkQuery (input.getD k default)) with
      | .error _ => input.getD k default
      | .ok a => cfg.update a (input.getD k default) := by
  show ((freshDf cfg input input.length).get? k).getD default = _
  rw [freshDf_get?_stable _ _ k input.length (by omega), freshDf]
  cases hp : cfg.provider k (cfg.mkQuery (input.getD k default)) with
  | error e =>
    simp only
    rw [freshDf_get?_ge _ _ k k le_rfl]
    rfl
  | ok a =>
    simp only
    rw [get?_updateAt_self, freshDf_get?_ge _ _ k k le_rfl, List.get?_eq_get hk]
    have hx : input.getD k default = input.get ⟨k, hk⟩ := by
      show (input.get? k).getD default = _
      rw [List.get?_eq_get hk]
      rfl
    rw [hx]
    rfl

/-- The fresh Nominatim run in one equation, the counterpart of
`google_fresh_run_eq`. -/
theorem nominatim_fresh_run_eq (provider : Nat → String → Except Unit NomResp)
    (country nameCol : String) (cp : Bool) (input : List Row) :
    get_coordinates_with_nominatim provider none country nameCol cp input =
      ⟨freshDf (nomCfg provider cp country) input input.length,
       ((List.range input.length).filter
           (savedAt (nomCfg provider cp country) input input.length)).map
           (fun t => freshDf (nomCfg provider cp country) input (t + 1)) ++
         [freshDf (nomCfg provider cp country) input input.length],
       (List.range input.length).map
         (fun t => (t, buildQuery cp country (input.getD t default))),
       (List.range input.length).map (fun i => (i + 1, input.length)),
       (List.range input.length).map (sleepOf (nomCfg provider cp country) input)⟩ := by
  unfold get_coordinates_with_nominatim
  simp only [resumePhase]
  have h2 : ((List.range input.length).filter (fun j => !(decide (j ∈ ([] : List Nat))))) =
      List.range input.length := by simp
  rw [h2, enum_range, List.length_range, freshLoop_spec]
  rfl

/-- When the validator rejects the response, the Google row update
leaves the coordinates and the address untouched (only the
Locality_Filter flag is written). -/
theorem googleUpdate_invalid (country : String) (db : List CountryRec) (snf : Bool)
    (rs : List GeoResult) (r : Row) (h : is_valid_geocode_result rs country db = false) :
    (googleUpdate country db snf rs r).lat = r.lat ∧
      (googleUpdate country db snf rs r).lng = r.lng ∧
      (googleUpdate country db snf rs r).address = r.address := by
  cases rs with
  | nil => exact ⟨rfl, rfl, rfl⟩
  | cons res rest =>
    unfold googleUpdate
    simp [h]

/-! ### Claim C4: checkpoint cadence -/

/-- C4 counterexample: for 23 rows and a non-failing provider stub the
destination is overwritten 4 times, not 3: after rows 10, 20 and 23
inside the loop, and once more unconditionally after the loop
(geocoding_functions.py line 174). -/
theorem checkpoint_23_rows_not_three : run23.saves.length ≠ 3 := by decide

/-- C4 (amended): with a never-failing provider, a fresh run saves
after every 10th processed row and after the last row inside the loop,
plus one unconditional final save after the loop; for 23 rows that is
4 overwrites. -/
theorem checkpoint_cadence (provider : Nat → GQuery → Except Unit (List GeoResult))
    (country nameCol : String) (cp snf : Bool) (db : List CountryRec) (input : List Row)
    (hok : ∀ t q, (provider t q).isOk = true) :
    (get_coordinates_for_locations provider none country nameCol cp snf db input).saves.length =
      ((List.range input.length).filter
        (fun t => (t + 1) % 10 == 0 || t == input.length - 1)).length + 1 := by
  have hok2 : ∀ t q, ((googleCfg provider cp country snf db).provider t q).isOk = true := hok
  rw [google_fresh_run_eq]
  simp only [List.length_append, List.length_map, List.length_cons, List.length_nil,
    Nat.zero_add]
  congr 2
  apply List.filter_congr
  intro t _
  rw [savedAt]
  cases hp : (googleCfg provider cp country snf db).provider t
      ((googleCfg provider cp country snf db).mkQuery (input.getD t default)) with
  | error e => exact absurd (hok2 t _) (by rw [hp]; exact fun h => Bool.false_ne_true h)
  | ok a => rfl

theorem checkpoint_cadence_witness : run23.saves.length = 4 := by
  show (get_coordinates_for_locations okProvider none "" "remote_name" false false
    [] input23).saves.length = 4
  rw [checkpoint_cadence okProvider "" "remote_name" false false [] input23
    (fun _ _ => rfl)]
  decide

/-! ### Claim C5: provider error containment -/

/-- C5: on any fresh run, the progress callback is advanced once per
row whatever the provider does, the last persisted table equals the
returned one, and at any row whose provider call raises: the sleep is
the long cooldown (longer than either normal pacing), the table as of
that row is among the persisted snapshots, and the row stays fully
unresolved while the rest of the batch still drains. -/
theorem provider_error_containment
    (provider : Nat → GQuery → Except Unit (List GeoResult))
    (country nameCol : String) (cp snf : Bool) (db : List CountryRec) (input : List Row)
    (k : Nat) (hk : k < input.length)
    (hfresh : ∀ r ∈ input, r.lat = none ∧ r.lng = none ∧ r.address = none)
    (herr : provider k (googleQuery cp country snf (input.getD k default)) = .error ())
    (providerN : Nat → String → Except Unit NomResp)
    (herrN : providerN k (buildQuery cp country (input.getD k default)) = .error ()) :
    (get_coordinates_for_locations provider none country nameCol cp snf db input).progress =
        (List.range input.length).map (fun i => (i + 1, input.length)) ∧
      (get_coordinates_for_locations provider none country nameCol cp snf db
          input).saves.getLast? =
        some (get_coordinates_for_locations provider none country nameCol cp snf db input).df ∧
      (get_coordinates_for_locations provider none country nameCol cp snf db
          input).sleeps.get? k = some errorCooldown ∧
      googlePacing < errorCooldown ∧ nominatimPacing < errorCooldown ∧
      freshDf (googleCfg provider cp country snf db) input (k + 1) ∈
        (get_coordinates_for_locations provider none country nameCol cp snf db input).saves ∧
      ((get_coordinates_for_locations provider none country nameCol cp snf db input).df.getD
          k default).lat = none ∧
      ((get_coordinates_for_locations provider none country nameCol cp snf db input).df.getD
          k default).lng = none ∧
      ((get_coordinates_for_locations provider none country nameCol cp snf db input).df.getD
          k default).address = none ∧
      (get_coordinates_with_nominatim providerN none country nameCol cp input).progress =
        (List.range input.length).map (fun i => (i + 1, input.length)) ∧
      (get_coordinates_with_nominatim providerN none country nameCol cp
          input).saves.getLast? =
        some (get_coordinates_with_nominatim providerN none country nameCol cp input).df ∧
      (get_coordinates_with_nominatim providerN none country nameCol cp
          input).sleeps.get? k = some errorCooldown ∧
      freshDf (nomCfg providerN cp country) input (k + 1) ∈
        (get_coordinates_with_nominatim providerN none country nameCol cp input).saves ∧
      ((get_coordinates_with_nominatim providerN none country nameCol cp input).df.getD
          k default).lat = none := by
  have herr2 : (googleCfg provider cp country snf db).provider k
      ((googleCfg provider cp country snf db).mkQuery (input.getD k default)) =
        .error () := herr
  have herrN2 : (nomCfg providerN cp country).provider k
      ((nomCfg providerN cp country).mkQuery (input.getD k default)) = .error () := herrN
  have hfields := hfresh (input.getD k default) (getD_mem input k hk)
  have hdf : (get_coordinates_for_locations provider none country nameCol cp snf db
      input).df.getD k default = input.getD k default := by
    rw [google_fresh_df_getD provider country nameCol cp snf db input k hk, herr]
  have hdfN : (get_coordinates_with_nominatim providerN none country nameCol cp
      input).df.getD k default = input.getD k default := by
    rw [nominatim_fresh_run_eq]
    show (freshDf (nomCfg providerN cp country) input input.length).getD k default = _
    rw [freshDf_final_getD _ _ k hk, herrN2]
  refine ⟨?_, ?_, ?_, by norm_num [googlePacing, errorCooldown],
    by norm_num [nominatimPacing, errorCooldown], ?_, by rw [hdf]; exact hfields.1,
    by rw [hdf]; exact hfields.2.1, by rw [hdf]; exact hfields.2.2,
    ?_, ?_, ?_, ?_, by rw [hdfN]; exact hfields.1⟩
  · rw [google_fresh_run_eq]
  · rw [google_fresh_run_eq]
    exact List.getLast?_concat _
  · rw [google_fresh_run_eq]
    show (((List.range input.length).map
      (sleepOf (googleCfg provider cp country snf db) input)).get? k) = some errorCooldown
    rw [List.get?_map, List.get?_range hk]
    show some (sleepOf (googleCfg provider cp country snf db) input k) = some errorCooldown
    rw [sleepOf, herr2]
  · rw [google_fresh_run_eq]
    show _ ∈ _ ++ _
    refine List.mem_append_left _ (List.mem_map_of_mem _ ?_)
    rw [List.mem_filter]
    refine ⟨List.mem_range.mpr hk, ?_⟩
    rw [savedAt, herr2]
  · rw [nominatim_fresh_run_eq]
  · rw [nominatim_fresh_run_eq]
    exact List.getLast?_concat _
  · rw [nominatim_fresh_run_eq]
    show (((List.range input.length).map
      (sleepOf (nomCfg providerN cp country) input)).get? k) = some errorCooldown
    rw [List.get?_map, List.get?_range hk]
    show some (sleepOf (nomCfg providerN cp country) input k) = some errorCooldown
    rw [sleepOf, herrN2]
  · rw [nominatim_fresh_run_eq]
    show _ ∈ _ ++ _
    refine List.mem_append_left _ (List.mem_map_of_mem _ ?_)
    rw [List.mem_filter]
    refine ⟨List.mem_range.mpr hk, ?_⟩
    rw [savedAt, herrN2]

theorem provider_error_containment_witness :
    runE.progress = [(1, 1)] ∧ runE.sleeps.get? 0 = some errorCooldown ∧
      (runE.df.getD 0 default).lat = none ∧ runEN.progress = [(1, 1)] ∧
      (runEN.df.getD 0 default).lat = none := by
  have h := provider_error_containment errProvider "" "remote_name" false false [] input1
    0 (by decide) (by decide) rfl errProviderN rfl
  exact ⟨h.1, h.2.2.1, h.2.2.2.2.2.2.1, h.2.2.2.2.2.2.2.2.2.1,
    h.2.2.2.2.2.2.2.2.2.2.2.2.2⟩

/-! ### Claim C2: validation before writing -/

/-- C2 counterexample: the Nominatim pipeline writes the first result
without any validation, so a best match whose display name is exactly
the country (a candidate the ResultValidator of section 4.3 rejects)
does populate Lat, Lng and Address. -/
theorem nominatim_writes_country_only :
    (runN.df.getD 0 default).lat = some 46 ∧
      (runN.df.getD 0 default).lng = some 2 ∧
      (runN.df.getD 0 default).address = some "France" ∧
      is_valid_geocode_result [⟨"France", 46, 2⟩] "France" pycountrySample = false := by
  decide

/-- C2 (amended): only the primary (Google) pipeline validates the
candidate before writing: on a fresh run, any row whose provider
response fails the ResultValidator rule ends with Lat, Lng and Address
still null. -/
theorem primary_validates_before_write
    (provider : Nat → GQuery → Except Unit (List GeoResult))
    (country nameCol : String) (cp snf : Bool) (db : List CountryRec) (input : List Row)
    (k : Nat) (hk : k < input.length)
    (hfresh : ∀ r ∈ input, r.lat = none ∧ r.lng = none ∧ r.address = none)
    (hinv : ∀ rs, provider k (googleQuery cp country snf (input.getD k default)) = .ok rs →
        is_valid_geocode_result rs country db = false) :
    ((get_coordinates_for_locations provider none country nameCol cp snf db input).df.getD
        k default).lat = none ∧
      ((get_coordinates_for_locations provider none country nameCol cp snf db input).df.getD
          k default).lng = none ∧
      ((get_coordinates_for_locations provider none country nameCol cp snf db input).df.getD
          k default).address = none := by
  have hfields := hfresh (input.getD k default) (getD_mem input k hk)
  rw [google_fresh_df_getD provider country nameCol cp snf db input k hk]
  cases hp : provider k (googleQuery cp country snf (input.getD k default)) with
  | error e => exact hfields
  | ok rs =>
    simp only
    obtain ⟨h1, h2, h3⟩ := googleUpdate_invalid country db snf rs (input.getD k default)
      (hinv rs hp)
    rw [h1, h2, h3]
    exact hfields

theorem primary_validates_before_write_witness :
    ((get_coordinates_for_locations frProvider none "France" "remote_name" false false
        pycountrySample [{ name := some "gare" }]).df.getD 0 default).lat = none :=
  (primary_validates_before_write frProvider "France" "remote_name" false false
    pycountrySample [{ name := some "gare" }] 0 (by decide) (by decide)
    (fun rs hrs => by
      have : rs = [⟨"France", 46, 2⟩] := (Except.ok.injEq _ _).mp hrs.symm
      rw [this]
      decide)).1

/-! ### Claim C3: no unfiltered retry -/

/-- C3: at the failing input (locality-filtered mode, a country-only
first result, country France), the Google pipeline issues exactly one
provider call, locality-filtered, and leaves the row unresolved: no
second unfiltered query happens within the call, contradicting the
documented fallback behavior. -/
theorem google_no_unfiltered_retry :
    runG3.calls = [(0, ⟨"gare, France", some "gare"⟩)] ∧
      (runG3.df.getD 0 default).lat = none ∧
      (runG3.df.getD 0 default).lng = none ∧
      (runG3.df.getD 0 default).address = none ∧
      (runG3.df.getD 0 default).localityFilter = some true := by
  decide

/-! ### Resume-phase lemmas -/

theorem getD_map_of_lt (l : List Row) (f : Row → Row) (j : Nat) (h : j < l.length) :
    (l.map f).getD j default = f (l.getD j default) := by
  show ((l.map f).get? j).getD default = f ((l.get? j).getD default)
  rw [List.get?_map, List.get?_eq_get h]
  rfl

theorem resumeStep_length (g : Row → Row → Row) (acc : List Row × List Nat) (r : Row) :
    (resumeStep g acc r).1.length = acc.1.length := by
  unfold resumeStep
  by_cases hc : (r.lat.isSome && r.lng.isSome) = true <;> simp [hc]

theorem resumeStep_name (g : Row → Row → Row) (hname : ∀ r c, (g r c).name = c.name)
    (acc : List Row × List Nat) (r : Row) (j : Nat) :
    ((resumeStep g acc r).1.getD j default).name = (acc.1.getD j default).name := by
  unfold resumeStep
  by_cases hc : (r.lat.isSome && r.lng.isSome) = true
  · simp only [hc, if_true]
    show (((acc.1.map (fun c =>
        if nameMatches c.name r.name then g r c else c)).get? j).getD
          default).name = ((acc.1.get? j).getD default).name
    rw [List.get?_map]
    cases acc.1.get? j with
    | none => rfl
    | some c =>
      show ((if nameMatches c.name r.name then g r c else c)).name = c.name
      by_cases hm : nameMatches c.name r.name = true <;> simp [hm, hname]
  · simp [hc]

theorem resumeFold_length (g : Row → Row → Row) (rows : List Row)
    (acc : List Row × List Nat) :
    ((rows.foldl (resumeStep g) acc).1).length = acc.1.length := by
  induction rows generalizing acc with
  | nil => rfl
  | cons r rows ih => rw [List.foldl_cons, ih, resumeStep_length]

theorem resumeFold_name (g : Row → Row → Row) (hname : ∀ r c, (g r c).name = c.name)
    (rows : List Row) (acc : List Row × List Nat) (j : Nat) :
    (((rows.foldl (resumeStep g) acc).1).getD j default).name =
      (acc.1.getD j default).name := by
  induction rows generalizing acc with
  | nil => rfl
  | cons r rows ih => rw [List.foldl_cons, ih, resumeStep_name g hname]

theorem mem_matchedIdxs (df : List Row) (r : Row) (j : Nat) :
    j ∈ matchedIdxs df r ↔
      j < df.length ∧ nameMatches (df.getD j default).name r.name = true := by
  simp [matchedIdxs, List.mem_filter, List.mem_range]

/-- Membership in the processed set after the resume fold: an index is
processed exactly when it was already processed or some prior row with
both coordinates present matches its name. -/
theorem resumeFold_mem (g : Row → Row → Row) (hname : ∀ r c, (g r c).name = c.name)
    (rows : List Row) (acc : List Row × List Nat) (j : Nat) :
    j ∈ (rows.foldl (resumeStep g) acc).2 ↔
      j ∈ acc.2 ∨ ∃ r ∈ rows, (r.lat.isSome && r.lng.isSome) = true ∧
        j < acc.1.length ∧ nameMatches ((acc.1.getD j default)).name r.name = true := by
  induction rows generalizing acc with
  | nil => simp
  | cons r rows ih =>
    rw [List.foldl_cons, ih]
    by_cases hc : (r.lat.isSome && r.lng.isSome) = true
    · have h2 : (resumeStep g acc r).2 = acc.2 ++ matchedIdxs acc.1 r := by
        simp [resumeStep, hc]
      have hlen : (resumeStep g acc r).1.length = acc.1.length :=
        resumeStep_length g acc r
      have hnm : ∀ i, ((resumeStep g acc r).1.getD i default).name =
          (acc.1.getD i default).name := resumeStep_name g hname acc r
      rw [h2, List.mem_append, mem_matchedIdxs]
      simp only [hlen, hnm, List.mem_cons]
      constructor
      · rintro ((h | ⟨hj, hm⟩) | ⟨r2, hr2, hx⟩)
        · exact Or.inl h
        · exact Or.inr ⟨r, Or.inl rfl, hc, hj, hm⟩
        · exact Or.inr ⟨r2, Or.inr hr2, hx⟩
      · rintro (h | ⟨r2, (hr2 | hr2), hx1, hx2, hx3⟩)
        · exact Or.inl (Or.inl h)
        · exact Or.inl (Or.inr ⟨hx2, hr2 ▸ hx3⟩)
        · exact Or.inr ⟨r2, hr2, hx1, hx2, hx3⟩
    · have h0 : resumeStep g acc r = acc := by simp [resumeStep, hc]
      rw [h0]
      constructor
      · rintro (h | ⟨r2, hr2, hx⟩)
        · exact Or.inl h
        · exact Or.inr ⟨r2, List.mem_cons_of_mem _ hr2, hx⟩
      · rintro (h | ⟨r2, hr2, hx1, hx2, hx3⟩)
        · exact Or.inl h
        · rcases List.mem_cons.mp hr2 with hr3 | hr3
          · exact absurd (hr3 ▸ hx1) (by simpa using hc)
          · exact Or.inr ⟨r2, hr3, hx1, hx2, hx3⟩

/-- The resume fold maintains the copied-fields invariant, for any copy
function `g` that preserves the name cell and establishes the field
relation `P` of its prior row. -/
theorem resumeFold_inv (g : Row → Row → Row) (P : Row → Row → Prop)
    (hname : ∀ r c, (g r c).name = c.name) (hg : ∀ r c, P (g r c) r)
    (Q : Row → Prop) (rows : List Row) (acc : List Row × List Nat)
    (hrows : ∀ r ∈ rows, Q r) (hacc : ResumeInv Q P acc) :
    ResumeInv Q P (rows.foldl (resumeStep g) acc) := by
  induction rows generalizing acc with
  | nil => exact hacc
  | cons r rows ih =>
    rw [List.foldl_cons]
    refine ih _ (fun r2 hr2 => hrows r2 (List.mem_cons_of_mem _ hr2)) ?_
    by_cases hc : (r.lat.isSome && r.lng.isSome) = true
    · have h1 : (resumeStep g acc r).1 =
          acc.1.map (fun c => if nameMatches c.name r.name then g r c else c) := by
        simp [resumeStep, hc]
      have h2 : (resumeStep g acc r).2 = acc.2 ++ matchedIdxs acc.1 r := by
        simp [resumeStep, hc]
      intro j hj
      rw [h2, List.mem_append, mem_matchedIdxs] at hj
      have hjlen : j < acc.1.length := by
        rcases hj with hj | ⟨hjl, _⟩
        · exact (hacc j hj).1
        · exact hjl
      have hgd : (resumeStep g acc r).1.getD j default =
          (if nameMatches (acc.1.getD j default).name r.name then
            g r (acc.1.getD j default) else acc.1.getD j default) := by
        rw [h1, getD_map_of_lt _ _ _ hjlen]
      refine ⟨by rw [resumeStep_length]; exact hjlen, ?_⟩
      by_cases hm : nameMatches (acc.1.getD j default).name r.name = true
      · refine ⟨r, hrows r (List.mem_cons_self r rows), hc, ?_, ?_⟩ <;>
          rw [hgd, if_pos hm]
        · rw [hname]
          exact hm
        · exact hg r _
      · rcases hj with hj | ⟨_, hm2⟩
        · obtain ⟨_, r2, hQ, hco, hma, hP⟩ := hacc j hj
          exact ⟨r2, hQ, hco, by rw [hgd, if_neg hm]; exact hma,
            by rw [hgd, if_neg hm]; exact hP⟩
        · exact absurd hm2 hm
    · have h0 : resumeStep g acc r = acc := by simp [resumeStep, hc]
      rw [h0]
      exact hacc

/-- The resume-and-loop shape skips every row matched by a prior
resolved row: no provider call targets it, and at the end it stands in
the copy relation `P` to some matching prior row. -/
theorem resumeRun_skips (cfg : LoopCfg β α) (g : Row → Row → Row) (P : Row → Row → Prop)
    (hname : ∀ r c, (g r c).name = c.name) (hg : ∀ r c, P (g r c) r)
    (rows input : List Row) (j : Nat) (hj : j < input.length)
    (hmatch : ∃ r ∈ rows, (r.lat.isSome && r.lng.isSome) = true ∧
        nameMatches ((input.getD j default).name) r.name = true) :
    (∀ c ∈ (resumeRun cfg g input rows).calls, c.1 ≠ j) ∧
      ∃ r ∈ rows, (r.lat.isSome && r.lng.isSome) = true ∧
        nameMatches ((input.getD j default).name) r.name = true ∧
        P ((resumeRun cfg g input rows).df.getD j default) r := by
  obtain ⟨r0, hr0, hrc0, hm0⟩ := hmatch
  unfold resumeRun
  simp only
  set rp := rows.foldl (resumeStep g) (input, []) with hrp
  set rtp := (List.range rp.1.length).filter (fun i => !(decide (i ∈ rp.2))) with hrtp
  have hjp : j ∈ rp.2 :=
    (resumeFold_mem g hname rows (input, []) j).mpr (Or.inr ⟨r0, hr0, hrc0, hj, hm0⟩)
  have hnot : ∀ i ∈ rtp, i ≠ j := by
    intro i hi hij
    have h2 := (List.mem_filter.mp hi).2
    rw [hij] at h2
    simp only [Bool.not_eq_true', decide_eq_false_iff_not] at h2
    exact h2 hjp
  have hinv := resumeFold_inv g P hname hg (fun r => r ∈ rows) rows (input, [])
    (fun r h => h) (fun i hi => absurd hi (List.not_mem_nil i))
  obtain ⟨hjl2, r2, hQ, hco, hma, hP⟩ := hinv j hjp
  have hnm : (rp.1.getD j default).name = (input.getD j default).name :=
    resumeFold_name g hname rows (input, []) j
  have hdfq : (runLoop cfg rtp.length ⟨rp.1, [], [], [], []⟩ rtp.enum).df.get? j =
      rp.1.get? j := by
    refine runLoop_df_get?_ne _ _ _ _ j ?_
    intro p hp
    have hmem : p.2 ∈ rtp := by
      rw [← List.enum_map_snd rtp]
      exact List.mem_map_of_mem _ hp
    exact hnot _ hmem
  have hdfd : (runLoop cfg rtp.length ⟨rp.1, [], [], [], []⟩ rtp.enum).df.getD j default =
      rp.1.getD j default := by
    show ((runLoop cfg rtp.length ⟨rp.1, [], [], [], []⟩ rtp.enum).df.get? j).getD default =
      (rp.1.get? j).getD default
    rw [hdfq]
  constructor
  · intro c hc
    rcases runLoop_calls_sub _ _ _ _ c hc with h1 | h2
    · exact absurd h1 (List.not_mem_nil c)
    · rw [List.enum_map_snd] at h2
      exact hnot _ h2
  · exact ⟨r2, hQ, hco, by rw [← hnm]; exact hma, by rw [hdfd]; exact hP⟩

/-- The Google run with a usable prior output file is the
resume-and-loop shape with the Google copy function. -/
theorem google_resume_run_eq (provider : Nat → GQuery → Except Unit (List GeoResult))
    (country nameCol : String) (cp snf : Bool) (db : List CountryRec)
    (f : OutFile) (input : List Row)
    (hcols : ((["Lat", "Lng", "Address", nameCol]).all (fun c => f.cols.contains c)) = true) :
    get_coordinates_for_locations provider (some f) country nameCol cp snf db input =
      resumeRun (googleCfg provider cp country snf db) googleCopyFields input f.rows := by
  unfold get_coordinates_for_locations resumeRun
  simp only [resumePhase]
  rw [if_pos hcols]

/-- The Nominatim run with a usable prior output file is the
resume-and-loop shape with the Nominatim copy function, whose OSM
copying is conditional on the columns of the prior file. -/
theorem nominatim_resume_run_eq (provider : Nat → String → Except Unit NomResp)
    (country nameCol : String) (cp : Bool) (f : OutFile) (input : List Row)
    (hcols : ((["Lat", "Lng", "Address", nameCol]).all (fun c => f.cols.contains c)) = true) :
    get_coordinates_with_nominatim provider (some f) country nameCol cp input =
      resumeRun (nomCfg provider cp country)
        (nomCopyFields (f.cols.contains "OSM_ID") (f.cols.contains "OSM_Type"))
        input f.rows := by
  unfold get_coordinates_with_nominatim resumeRun
  simp only [resumePhase]
  rw [if_pos hcols]

/-! ### Claim C1: resume protocol -/

/-- C1 counterexample: re-running the Google pipeline against its own
output is not output-identical.  The resume copy takes only Lat, Lng
and Address (geocoding_functions.py lines 59 to 61), so the second run,
although it makes zero provider calls, clears the Maps_Link and
Locality_Filter provider fields that the first run had written. -/
theorem google_rerun_not_identical :
    run2.calls = [] ∧
      run2.df ≠ run1.df ∧
      (run1.df.getD 0 default).mapsLink =
        some "https://www.google.com/maps?q=1/1,2/1" ∧
      (run2.df.getD 0 default).mapsLink = none ∧
      (run2.df.getD 0 default).lat = (run1.df.getD 0 default).lat := by
  decide

/-- C1 (amended): when the prior output exposes the required columns,
in both pipeline variants every current row whose name exactly matches
a prior row with both coordinates present is skipped — the run never
issues a provider call for it — and ends up carrying the coordinates
and address of such a matching prior row, the secondary variant also
copying OSM_ID and OSM_Type when the prior file has those columns;
duplicate names therefore resolve together.  (The primary provider does
not copy its Maps_Link and Locality_Filter fields, which is what breaks
output-identical re-runs.) -/
theorem resume_skips_and_copies (providerG : Nat → GQuery → Except Unit (List GeoResult))
    (providerN : Nat → String → Except Unit NomResp)
    (country nameCol : String) (cp snf : Bool) (db : List CountryRec)
    (f : OutFile) (input : List Row) (j : Nat)
    (hcols : ((["Lat", "Lng", "Address", nameCol]).all (fun c => f.cols.contains c)) = true)
    (hj : j < input.length)
    (hmatch : ∃ r ∈ f.rows, (r.lat.isSome && r.lng.isSome) = true ∧
        nameMatches ((input.getD j default).name) r.name = true) :
    (∀ c ∈ (get_coordinates_for_locations providerG (some f) country nameCol cp snf db
        input).calls, c.1 ≠ j) ∧
      (∃ r ∈ f.rows, (r.lat.isSome && r.lng.isSome) = true ∧
        nameMatches ((input.getD j default).name) r.name = true ∧
        ((get_coordinates_for_locations providerG (some f) country nameCol cp snf db
            input).df.getD j default).lat = r.lat ∧
        ((get_coordinates_for_locations providerG (some f) country nameCol cp snf db
            input).df.getD j default).lng = r.lng ∧
        ((get_coordinates_for_locations providerG (some f) country nameCol cp snf db
            input).df.getD j default).address = r.address) ∧
      (∀ c ∈ (get_coordinates_with_nominatim providerN (some f) country nameCol cp
        input).calls, c.1 ≠ j) ∧
      (∃ r ∈ f.rows, (r.lat.isSome && r.lng.isSome) = true ∧
        nameMatches ((input.getD j default).name) r.name = true ∧
        ((get_coordinates_with_nominatim providerN (some f) country nameCol cp
            input).df.getD j default).lat = r.lat ∧
        ((get_coordinates_with_nominatim providerN (some f) country nameCol cp
            input).df.getD j default).lng = r.lng ∧
        ((get_coordinates_with_nominatim providerN (some f) country nameCol cp
            input).df.getD j default).address = r.address ∧
        (f.cols.contains "OSM_ID" = true →
          ((get_coordinates_with_nominatim providerN (some f) country nameCol cp
              input).df.getD j default).osmId = r.osmId) ∧
        (f.cols.contains "OSM_Type" = true →
          ((get_coordinates_with_nominatim providerN (some f) country nameCol cp
              input).df.getD j default).osmType = r.osmType)) := by
  have hG := resumeRun_skips (googleCfg providerG cp country snf db) googleCopyFields
    (fun c r => c.lat = r.lat ∧ c.lng = r.lng ∧ c.address = r.address)
    (fun r c => rfl) (fun r c => ⟨rfl, rfl, rfl⟩) f.rows input j hj hmatch
  have hN := resumeRun_skips (nomCfg providerN cp country)
    (nomCopyFields (f.cols.contains "OSM_ID") (f.cols.contains "OSM_Type"))
    (fun c r => (c.lat = r.lat ∧ c.lng = r.lng ∧ c.address = r.address) ∧
      (f.cols.contains "OSM_ID" = true → c.osmId = r.osmId) ∧
      (f.cols.contains "OSM_Type" = true → c.osmType = r.osmType))
    (fun r c => by
      unfold nomCopyFields
      cases f.cols.contains "OSM_ID" <;> cases f.cols.contains "OSM_Type" <;> rfl)
    (fun r c => by
      unfold nomCopyFields
      cases hb1 : f.cols.contains "OSM_ID" <;>
        cases hb2 : f.cols.contains "OSM_Type" <;> simp)
    f.rows input j hj hmatch
  rw [google_resume_run_eq providerG country nameCol cp snf db f input hcols,
    nominatim_resume_run_eq providerN country nameCol cp f input hcols]
  obtain ⟨hG1, rG, hrG, hcoG, hmG, hPG⟩ := hG
  obtain ⟨hN1, rN, hrN, hcoN, hmN, hPN⟩ := hN
  exact ⟨hG1, ⟨rG, hrG, hcoG, hmG, hPG.1, hPG.2.1, hPG.2.2⟩, hN1,
    ⟨rN, hrN, hcoN, hmN, hPN.1.1, hPN.1.2.1, hPN.1.2.2, hPN.2.1, hPN.2.2⟩⟩

/-! ### Claim C10: frame effect -/

theorem readF_writeF_ne (h : Heap) (i : Nat) (df : List Row) (j : Nat) (hne : j ≠ i) :
    readF (writeF h i df) j = readF h j := by
  unfold readF writeF
  show ((h.frames.set i df).get? j).getD [] = (h.frames.get? j).getD []
  rw [List.get?_set_ne _ _ (fun hc => hne hc.symm)]

theorem readF_allocF (h : Heap) (df : List Row) (j : Nat) (hj : j < h.frames.length) :
    readF (allocF h df).1 j = readF h j := by
  unfold readF allocF
  show ((h.frames ++ [df]).get? j).getD [] = (h.frames.get? j).getD []
  rw [List.get?_append hj]

theorem runLoopH_read_ne (cfg : LoopCfg β α) (n rid : Nat) (start : Heap × RunState β)
    (ps : List (Nat × Nat)) (j : Nat) (hne : j ≠ rid) :
    readF (runLoopH cfg n rid start ps).1 j = readF start.1 j := by
  induction ps generalizing start with
  | nil => rfl
  | cons p ps ih =>
    show readF (runLoopH cfg n rid _ ps).1 j = _
    rw [ih]
    exact readF_writeF_ne _ _ _ _ hne

/-- C10: each pipeline operation copies the caller frame on entry and
directs every write to the copy: at exit the caller frame is unchanged
and the returned frame identity is the fresh copy, never the caller
frame. -/
theorem frame_effect (providerG : Nat → GQuery → Except Unit (List GeoResult))
    (providerN : Nat → String → Except Unit NomResp) (existing : Option OutFile)
    (country nameCol : String) (cp snf hasML : Bool) (db : List CountryRec)
    (h : Heap) (inputId : Nat) (hin : inputId < h.frames.length) :
    readF (get_coordinates_for_locationsH providerG existing country nameCol cp snf db
        h inputId).1 inputId = readF h inputId ∧
      (get_coordinates_for_locationsH providerG existing country nameCol cp snf db
        h inputId).2.1 ≠ inputId ∧
      readF (get_coordinates_with_nominatimH providerN existing country nameCol cp
        h inputId).1 inputId = readF h inputId ∧
      (get_coordinates_with_nominatimH providerN existing country nameCol cp
        h inputId).2.1 ≠ inputId ∧
      readF (filter_invalid_resultsH country db h inputId).1 inputId = readF h inputId ∧
      (filter_invalid_resultsH country db h inputId).2 ≠ inputId ∧
      readF (display_summaryH country hasML h inputId).1 inputId = readF h inputId ∧
      (display_summaryH country hasML h inputId).2.1 ≠ inputId := by
  have hne : inputId ≠ h.frames.length := Nat.ne_of_lt hin
  have hne2 : inputId ≠ (allocF h (readF h inputId)).2 := hne
  have hG : readF (get_coordinates_for_locationsH providerG existing country nameCol cp snf
      db h inputId).1 inputId = readF h inputId := by
    unfold get_coordinates_for_locationsH
    simp only
    rw [runLoopH_read_ne _ _ _ _ _ _ hne2, readF_writeF_ne _ _ _ _ hne2,
      readF_allocF _ _ _ hin]
  have hN : readF (get_coordinates_with_nominatimH providerN existing country nameCol cp
      h inputId).1 inputId = readF h inputId := by
    unfold get_coordinates_with_nominatimH
    simp only
    rw [runLoopH_read_ne _ _ _ _ _ _ hne2, readF_writeF_ne _ _ _ _ hne2,
      readF_allocF _ _ _ hin]
  have hF : readF (filter_invalid_resultsH country db h inputId).1 inputId =
      readF h inputId := by
    unfold filter_invalid_resultsH
    simp only
    rw [readF_writeF_ne _ _ _ _ hne2, readF_allocF _ _ _ hin]
  have hS : readF (display_summaryH country hasML h inputId).1 inputId =
      readF h inputId := by
    unfold display_summaryH
    simp only
    rw [readF_writeF_ne _ _ _ _ hne2, readF_allocF _ _ _ hin]
  exact ⟨hG, fun hc => hne hc.symm, hN, fun hc => hne hc.symm, hF, fun hc => hne hc.symm,
    hS, fun hc => hne hc.symm⟩

theorem frame_effect_witness :
    readF (get_coordinates_for_locationsH okProvider none "" "remote_name" false false []
        ⟨[input1]⟩ 0).1 0 = readF ⟨[input1]⟩ 0 ∧
      readF (display_summaryH "France" true ⟨[input1]⟩ 0).1 0 = readF ⟨[input1]⟩ 0 := by
  have h := frame_effect okProvider nomProviderFr none "" "remote_name" false false true
    [] ⟨[input1]⟩ 0 (by decide)
  exact ⟨h.1, h.2.2.2.2.2.2.1⟩

theorem resume_skips_and_copies_witness :
    (∀ c ∈ (get_coordinates_for_locations okProvider (some outB) "" "remote_name" false
        false [] input1).calls, c.1 ≠ 0) ∧
      (∀ c ∈ (get_coordinates_with_nominatim nomProviderFr (some outB) "" "remote_name"
        false input1).calls, c.1 ≠ 0) ∧
      ∃ r ∈ outB.rows, (r.lat.isSome && r.lng.isSome) = true ∧
        nameMatches ((input1.getD 0 default).name) r.name = true ∧
        ((get_coordinates_with_nominatim nomProviderFr (some outB) "" "remote_name" false
            input1).df.getD 0 default).lat = r.lat ∧
        ((get_coordinates_with_nominatim nomProviderFr (some outB) "" "remote_name" false
            input1).df.getD 0 default).lng = r.lng ∧
        ((get_coordinates_with_nominatim nomProviderFr (some outB) "" "remote_name" false
            input1).df.getD 0 default).address = r.address ∧
        (outB.cols.contains "OSM_ID" = true →
          ((get_coordinates_with_nominatim nomProviderFr (some outB) "" "remote_name" false
              input1).df.getD 0 default).osmId = r.osmId) ∧
        (outB.cols.contains "OSM_Type" = true →
          ((get_coordinates_with_nominatim nomProviderFr (some outB) "" "remote_name" false
              input1).df.getD 0 default).osmType = r.osmType) := by
  have h := resume_skips_and_copies okProvider nomProviderFr "" "remote_name" false false
    [] outB input1 0 (by decide) (by decide) (by decide)
  exact ⟨h.1, h.2.2.1, h.2.2.2⟩

end Geocode
